import Mathlib

/-!
Shallow embedding of the fusion-scheduling encoder of
`src/mmf/models/multitaskvilbert.py` (dual-stream ViLBERT variant), together
with theorems settling the specification claims about it.
-/

namespace MMF

/-- Configuration fields consumed by the modules under verification, mirroring
the attributes read from `config` in `multitaskvilbert.py`. -/
structure BertModelConfig where
  hidden_size : Nat
  num_attention_heads : Nat
  v_hidden_size : Nat
  v_num_attention_heads : Nat
  bi_hidden_size : Nat
  bi_num_attention_heads : Nat
  fast_mode : Bool
  with_coattention : Bool
  in_batch_pairs : Bool
  v_biattention_id : List Nat
  t_biattention_id : List Nat
  fixed_t_layer : Nat
  fixed_v_layer : Nat
  num_hidden_layers : Nat
  v_num_hidden_layers : Nat
  fusion_method : String
  deriving Repr, DecidableEq

/-- Embeds `BertSelfAttention.__init__` (lines 51-69): raises `ValueError` when the
text hidden size is not a multiple of the text head count; otherwise builds
the projections.  Only the validation is value-relevant here. -/
def bertSelfAttentionInit (c : BertModelConfig) : Except String Unit :=
  if c.hidden_size % c.num_attention_heads ≠ 0 then
    Except.error "The hidden size is not a multiple of the number of attention heads"
  else
    Except.ok ()

/-- Embeds `BertImageSelfAttention.__init__` (lines 158-183): the visual-stream
divisibility check. -/
def bertImageSelfAttentionInit (c : BertModelConfig) : Except String Unit :=
  if c.v_hidden_size % c.v_num_attention_heads ≠ 0 then
    Except.error "The hidden size is not a multiple of the number of attention heads"
  else
    Except.ok ()

/-- Embeds `BertBiAttention.__init__` (lines 352-383): the bidirectional
divisibility check. -/
def bertBiAttentionInit (c : BertModelConfig) : Except String Unit :=
  if c.bi_hidden_size % c.bi_num_attention_heads ≠ 0 then
    Except.error "The hidden size is not a multiple of the number of attention heads"
  else
    Except.ok ()

/-- The encoder module state after `BertEncoder.__init__` (lines 564-593):
the configuration attributes it stores plus the lengths of the three layer
stacks (`self.layer`, `self.v_layer`, `self.c_layer`). -/
structure EncConfig where
  fast_mode : Bool
  with_coattention : Bool
  in_batch_pairs : Bool
  v_biattention_id : List Nat
  t_biattention_id : List Nat
  fixed_t_layer : Nat
  fixed_v_layer : Nat
  numT : Nat
  numV : Nat
  numC : Nat
  deriving Repr, DecidableEq

/-- Embeds `BertEncoder.__init__` (lines 564-593): builds one `BertLayer`, one
`BertImageLayer` and one `BertConnectionLayer` prototype (whose constructors
perform the three divisibility checks), deep-copies them into the stacks, and
stores the schedule lists and flags.  No validation of the schedule lists
takes place here. -/
def bertEncoderInit (c : BertModelConfig) : Except String EncConfig := do
  bertSelfAttentionInit c
  bertImageSelfAttentionInit c
  bertBiAttentionInit c
  Except.ok ⟨c.fast_mode, c.with_coattention, c.in_batch_pairs,
    c.v_biattention_id, c.t_biattention_id, c.fixed_t_layer, c.fixed_v_layer,
    c.num_hidden_layers, c.v_num_hidden_layers, c.v_biattention_id.length⟩

/-- Boolean test that a list of depths is non-decreasing; used to state the
schedule-monotonicity claims. -/
def nonDecreasing : List Nat → Bool
  | [] => true
  | [_] => true
  | a :: b :: rest => decide (a ≤ b) && nonDecreasing (b :: rest)

/-- The module state after `BertPreTrainingHeads.__init__` (lines 866-873):
the stored `fusion_method`.  The prediction heads, the linear layer and the
dropout module are built unconditionally; no `fusion_method` validation
occurs at construction. -/
structure BertPreTrainingHeads where
  fusion_method : String
  deriving Repr, DecidableEq

/-- Embeds `BertPreTrainingHeads.__init__` (lines 866-873): always succeeds,
storing `config.fusion_method` unchecked. -/
def bertPreTrainingHeadsInit (c : BertModelConfig) : Except String BertPreTrainingHeads :=
  Except.ok ⟨c.fusion_method⟩

/-- The fusion-relevant module state after `ViLBERTExpert.__init__`
(lines 1097-1124): `self.fusion_method = config.fusion_method`, stored
without validation. -/
structure ViLBERTExpertHead where
  fusion_method : String
  deriving Repr, DecidableEq

/-- Embeds `ViLBERTExpert.__init__` (lines 1097-1124): stores `config.fusion_method`
unchecked (the surrounding construction performs no fusion-method
validation either). -/
def vilbertExpertInit (c : BertModelConfig) : Except String ViLBERTExpertHead :=
  Except.ok ⟨c.fusion_method⟩

/-- The pooled-vector combination step shared by
`BertPreTrainingHeads.forward` (lines 882-887) and `ViLBERTExpert.forward`
(lines 1177-1182): `sum` adds the pooled vectors elementwise, `mul`
multiplies them elementwise, anything else raises `AssertionError`; the
chosen combination is then passed through dropout.  Pooled vectors are
rank-1 over the batch-collapsed hidden axis, modelled as `Fin n → ℚ`. -/
def pooledFusionCombine (n : Nat) (method : String)
    (dropout : (Fin n → ℚ) → Fin n → ℚ) (t v : Fin n → ℚ) :
    Except String (Fin n → ℚ) :=
  if method = "sum" then Except.ok (dropout (fun i => t i + v i))
  else if method = "mul" then Except.ok (dropout (fun i => t i * v i))
  else Except.error "AssertionError"

/-- Embeds `ViLBERTBase.forward` line 1000: the additive text attention bias derived
from a 0/1 mask row by `(1.0 - attention_mask) * -10000.0`, elementwise. -/
def extendedAttentionMask (row : List ℚ) : List ℚ :=
  row.map (fun m => (1 - m) * (-10000))

/-- Embeds `ViLBERTBase.forward` line 1008: the additive image attention bias
derived from a 0/1 mask row by `(1.0 - image_attention_mask) * -10000.0`. -/
def extendedImageAttentionMask (row : List ℚ) : List ℚ :=
  row.map (fun m => (1 - m) * (-10000))

/-- Embeds `ViLBERTBase.forward` lines 1015-1018: the co-attention mask is
unsqueezed and multiplied by the fixed constant `5.0` before the encoder
runs; elementwise on the (regions × words) payload. -/
def extendCoAttentionMask (co : List (List ℚ)) : List (List ℚ) :=
  co.map (fun row => row.map (fun x => x * 5))

/-- Embeds `BertEncoder.forward` lines 685-690 (and 691-696 for the mask): the
in-batch-pairs expansion of a visual-side batch,
`x.unsqueeze(0).expand(B, B, ...).contiguous().view(B*B, ...)`.
`unsqueeze(0)` followed by `expand` replicates the whole batch `B` times
along a new leading axis, and `view` flattens the two batch axes, so flat
entry `j*B + k` holds original entry `k`. -/
def inBatchPairsImage (B : Nat) (img : List α) : List α :=
  (List.replicate B img).flatten

/-- Embeds `BertEncoder.forward` lines 698-715: the in-batch-pairs expansion of a
text-side batch (and of the text mask and co-attention mask),
`x.unsqueeze(1).expand(B, B, ...).contiguous().view(B*B, ...)`.
`unsqueeze(1)` followed by `expand` replicates each batch entry `B` times in
place, so flat entry `j*B + k` holds original entry `j`. -/
def inBatchPairsText (B : Nat) (txt : List α) : List α :=
  (txt.map (List.replicate B)).flatten

/-- Embeds `BertEncoder.forward` lines 717-728: the fast-mode broadcast
`txt_embedding.expand(image_embedding.size(0), ...)` along the batch axis,
with the `torch.Tensor.expand` semantics: a size-1 batch axis is broadcast
to `N` copies, an axis already of size `N` is returned unchanged, and any
other size is a runtime error. -/
def tensorExpandBatch (N : Nat) (l : List α) : Option (List α) :=
  match l with
  | [t] => some (List.replicate N t)
  | _ => if l.length = N then some l else none

/-- A small well-formed configuration (all divisibility checks pass) whose
`fusion_method` is the unsupported value `"xor"`. -/
def xorMethodConfig : BertModelConfig :=
  ⟨4, 2, 4, 2, 4, 2, false, true, false, [0, 1], [0, 1], 0, 0, 2, 2, "xor"⟩

/-- A small well-formed configuration whose schedule lists are strictly
decreasing, violating the schedule-monotonicity requirement. -/
def decreasingScheduleConfig : BertModelConfig :=
  ⟨4, 2, 4, 2, 4, 2, false, true, false, [2, 1], [2, 1], 0, 0, 3, 3, "mul"⟩

/-- A linear layer `y = W x + b`, as built by `nn.Linear`. -/
structure LinearLayer (dIn dOut : Nat) where
  weight : Fin dOut → Fin dIn → ℝ
  bias : Fin dOut → ℝ

/-- Application of a linear layer to one position vector. -/
def LinearLayer.apply (L : LinearLayer dIn dOut) (x : Fin dIn → ℝ) :
    Fin dOut → ℝ :=
  fun o => (∑ i, L.weight o i * x i) + L.bias o

/-- Flat index of head `h`, slot `p`, in an `all_head_size = H * s` axis. -/
def headIndex (H s : Nat) (h : Fin H) (p : Fin s) : Fin (H * s) :=
  ⟨h.1 * s + p.1, by
    have h1 : h.1 * s + p.1 < (h.1 + 1) * s := by
      have := p.2
      calc h.1 * s + p.1 < h.1 * s + s := by omega
        _ = (h.1 + 1) * s := by ring
    exact lt_of_lt_of_le h1 (Nat.mul_le_mul_right s h.2)⟩

/-- Embeds `transpose_for_scores` (lines 385-391): views the `H * s`
projection axis as `H` heads of size `s` (a contiguous reshape). -/
def transposeForScores (H s : Nat) (x : Fin (H * s) → ℝ) (h : Fin H)
    (p : Fin s) : ℝ :=
  x (headIndex H s h p)

/-- Merging heads back into one `H * s` axis
(`permute(0,2,1,3).contiguous().view(...)`, lines 440-442 and 464-466). -/
def mergeHeads (H s : Nat) (f : Fin H → Fin s → ℝ) (d : Fin (H * s)) : ℝ :=
  f ⟨d.1 / s, by
      have hs : 0 < s := by
        rcases Nat.eq_zero_or_pos s with h | h
        · exact absurd d.2 (by simp [h])
        · exact h
      exact (Nat.div_lt_iff_lt_mul hs).mpr (by
        have := d.2
        calc d.1 < H * s := this
          _ = H * s := rfl)⟩
    ⟨d.1 % s, by
      have hs : 0 < s := by
        rcases Nat.eq_zero_or_pos s with h | h
        · exact absurd d.2 (by simp [h])
        · exact h
      exact Nat.mod_lt _ hs⟩

/-- Row-wise softmax (`nn.functional.softmax(scores, dim=-1)`). -/
noncomputable def softmaxRow (m : Nat) (v : Fin m → ℝ) : Fin m → ℝ :=
  fun j => Real.exp (v j) / ∑ k, Real.exp (v k)

/-- Parameters of `BertBiAttention` (lines 352-383): three vision-side and
three text-side projections into the shared `bi` width `H * s`. -/
structure BiAttentionWeights (H s dv dt : Nat) where
  query1 : LinearLayer dv (H * s)
  key1 : LinearLayer dv (H * s)
  value1 : LinearLayer dv (H * s)
  query2 : LinearLayer dt (H * s)
  key2 : LinearLayer dt (H * s)
  value2 : LinearLayer dt (H * s)

/-- Embeds `BertBiAttention.forward` (lines 393-480) in inference mode
(dropout is the identity), for one batch element: stream 1 is the vision
sequence (`R` regions, width `dv`), stream 2 the text sequence (`W` words,
width `dt`).  Direction 1 uses text queries against vision keys/values with
the vision mask; direction 2 uses vision queries against text keys/values
with the text mask.  The two co-attention-mask additions present in the
source are commented out (lines 429-430 and 453-454), so the
`co_attention_mask` and `use_co_attention_mask` parameters do not enter the
computation, exactly as in the source. -/
noncomputable def bertBiAttentionForward (H s R W dv dt : Nat)
    (wts : BiAttentionWeights H s dv dt)
    (input_tensor1 : Fin R → Fin dv → ℝ) (attention_mask1 : Fin R → ℝ)
    (input_tensor2 : Fin W → Fin dt → ℝ) (attention_mask2 : Fin W → ℝ)
    (co_attention_mask : Fin R → Fin W → ℝ)
    (use_co_attention_mask : Bool) :
    (Fin W → Fin (H * s) → ℝ) × (Fin R → Fin (H * s) → ℝ) :=
  let query_layer1 : Fin H → Fin R → Fin s → ℝ :=
    fun h r p => transposeForScores H s (wts.query1.apply (input_tensor1 r)) h p
  let key_layer1 : Fin H → Fin R → Fin s → ℝ :=
    fun h r p => transposeForScores H s (wts.key1.apply (input_tensor1 r)) h p
  let value_layer1 : Fin H → Fin R → Fin s → ℝ :=
    fun h r p => transposeForScores H s (wts.value1.apply (input_tensor1 r)) h p
  let query_layer2 : Fin H → Fin W → Fin s → ℝ :=
    fun h w p => transposeForScores H s (wts.query2.apply (input_tensor2 w)) h p
  let key_layer2 : Fin H → Fin W → Fin s → ℝ :=
    fun h w p => transposeForScores H s (wts.key2.apply (input_tensor2 w)) h p
  let value_layer2 : Fin H → Fin W → Fin s → ℝ :=
    fun h w p => transposeForScores H s (wts.value2.apply (input_tensor2 w)) h p
  let attention_scores1 : Fin H → Fin W → Fin R → ℝ :=
    fun h i j =>
      (∑ p, query_layer2 h i p * key_layer1 h j p) / Real.sqrt (s : ℝ) +
        attention_mask1 j
  let attention_probs1 : Fin H → Fin W → Fin R → ℝ :=
    fun h i => softmaxRow R (attention_scores1 h i)
  let context_layer1 : Fin W → Fin (H * s) → ℝ :=
    fun i => mergeHeads H s (fun h p => ∑ j, attention_probs1 h i j * value_layer1 h j p)
  let attention_scores2 : Fin H → Fin R → Fin W → ℝ :=
    fun h i j =>
      (∑ p, query_layer1 h i p * key_layer2 h j p) / Real.sqrt (s : ℝ) +
        attention_mask2 j
  let attention_probs2 : Fin H → Fin R → Fin W → ℝ :=
    fun h i => softmaxRow W (attention_scores2 h i)
  let context_layer2 : Fin R → Fin (H * s) → ℝ :=
    fun i => mergeHeads H s (fun h p => ∑ j, attention_probs2 h i j * value_layer2 h j p)
  (context_layer1, context_layer2)

/-- An all-zero linear layer, for concrete counterexample instances. -/
def zeroLinear (dIn dOut : Nat) : LinearLayer dIn dOut :=
  ⟨fun _ _ => 0, fun _ => 0⟩

/-- Concrete one-head, one-slot, one-position bi-attention weights. -/
def demoBiWeights : BiAttentionWeights 1 1 1 1 :=
  ⟨zeroLinear 1 1, zeroLinear 1 1, zeroLinear 1 1,
   zeroLinear 1 1, zeroLinear 1 1, zeroLinear 1 1⟩

/-- Abstract per-layer semantics for `BertEncoder.forward`: the text layers
(`self.layer`, index → text state → text mask → text state), the visual
layers (`self.v_layer`, which also receive the current text stream and the
second text mask for dynamic gating), the connection layers (`self.c_layer`,
returning the new image and text states in that order, as in lines
735-746), and the batch-reshaping primitives of lines 683-728 (one per
reshaped tensor).  `forward_no_grad` calls `forward` under `torch.no_grad`
and is numerically identical to it (lines 153-155, 339-349), so frozen
applications reuse the same layer function. -/
structure EncOps (Tm Vm Mt Mt2 Mv Cm : Type) where
  tLayer : Nat → Tm → Mt → Tm
  vLayer : Nat → Vm → Mv → Tm → Mt2 → Vm
  cLayer : Nat → Vm → Mv → Tm → Mt → Cm → Bool → Vm × Tm
  pairsImg : Vm → Vm
  pairsIMask : Mv → Mv
  pairsTxt : Tm → Tm
  pairsTMask : Mt → Mt
  pairsCo : Cm → Cm
  fastTxt : Vm → Tm → Tm
  fastTMask : Vm → Mt → Mt

/-- The mutable locals of `BertEncoder.forward` (lines 610-618 plus the
tensor arguments, which the loop body reassigns): the two stream states,
the four masks, `t_start`, `v_start`, `count`, and the two encoded-layer
lists. -/
structure EncState (Tm Vm Mt Mt2 Mv Cm : Type) where
  txt : Tm
  img : Vm
  tMask : Mt
  tMask2 : Mt2
  iMask : Mv
  coMask : Cm
  tStart : Nat
  vStart : Nat
  count : Nat
  allT : List Tm
  allV : List Vm

/-- Conditional left fold over layer indices `0..n-1`, applying `f i` when
`a ≤ i < b`: the pattern of the gradient-tracked advance loops
(lines 642-650 and 670-681). -/
def condFold (f : Nat → α → α) (n a b : Nat) (x : α) : α :=
  (List.range n).foldl (fun y i => if a ≤ i ∧ i < b then f i y else y) x

/-- The frozen warm-up loop pattern (lines 631-640 and 652-668): the loop
walks all layer indices, but the start bound of its condition is REASSIGNED
to `fixed` inside the body, so the condition changes mid-loop. -/
def frozenFold (f : Nat → α → α) (n fixed : Nat) (x : α) (s : Nat) :
    α × Nat :=
  (List.range n).foldl
    (fun p i => if p.2 ≤ i ∧ i < fixed then (f i p.1, fixed) else p) (x, s)

/-- The tail loop pattern (lines 769-790): apply every layer with index
`≥ a`. -/
def tailFold (f : Nat → α → α) (n a : Nat) (x : α) : α :=
  (List.range n).foldl (fun y i => if a ≤ i then f i y else y) x

variable {Tm Vm Mt Mt2 Mv Cm : Type}

/-- Embeds lines 683-715: the in-batch-pairs branch replaces the image
embedding, image mask, text embedding, text mask and co-attention mask by
their pairwise expansions (`txt_attention_mask2` is not touched). -/
def pairsStep (ops : EncOps Tm Vm Mt Mt2 Mv Cm)
    (st : EncState Tm Vm Mt Mt2 Mv Cm) : EncState Tm Vm Mt Mt2 Mv Cm :=
  { st with
    img := ops.pairsImg st.img
    iMask := ops.pairsIMask st.iMask
    txt := ops.pairsTxt st.txt
    tMask := ops.pairsTMask st.tMask
    coMask := ops.pairsCo st.coMask }

/-- Embeds lines 717-728: the fast-mode branch broadcasts the text
embedding and text mask to the current image batch size. -/
def fastStep (ops : EncOps Tm Vm Mt Mt2 Mv Cm)
    (st : EncState Tm Vm Mt Mt2 Mv Cm) : EncState Tm Vm Mt Mt2 Mv Cm :=
  { st with
    txt := ops.fastTxt st.img st.txt
    tMask := ops.fastTMask st.img st.tMask }

/-- Embeds lines 683-728 as a whole: two sequential `if` statements, both
gated on `count == 0` and the respective flag, the pairwise expansion
first. -/
def reshapeStep (cfg : EncConfig) (ops : EncOps Tm Vm Mt Mt2 Mv Cm)
    (st : EncState Tm Vm Mt Mt2 Mv Cm) : EncState Tm Vm Mt Mt2 Mv Cm :=
  let st1 := if st.count = 0 ∧ cfg.in_batch_pairs then pairsStep ops st else st
  if st1.count = 0 ∧ cfg.fast_mode then fastStep ops st1 else st1

/-- Embeds lines 731-759: the connection-layer loop applies the c-layer
whose index equals `count` to the `(image, text)` pair, with
`use_co_attention_mask` always `False` (line 623). -/
def fusionFold (ops : EncOps Tm Vm Mt Mt2 Mv Cm) (numC count : Nat)
    (iMask : Mv) (tMask : Mt) (coMask : Cm) (p : Vm × Tm) : Vm × Tm :=
  (List.range numC).foldl
    (fun q i =>
      if i = count then ops.cLayer i q.1 iMask q.2 tMask coMask false else q)
    p

/-- Records the current stream states in the encoded-layer lists
(lines 765-767 and 793-795). -/
def appendOutputs (st : EncState Tm Vm Mt Mt2 Mv Cm) :
    EncState Tm Vm Mt Mt2 Mv Cm :=
  { st with allT := st.allT ++ [st.txt], allV := st.allV ++ [st.img] }

/-- Embeds lines 631-650: the frozen text loop followed by the normal text
loop; returns the advanced text state and the updated `t_start` as left by
the frozen loop's in-body reassignment. -/
def advanceText (cfg : EncConfig) (ops : EncOps Tm Vm Mt Mt2 Mv Cm)
    (tMask : Mt) (tEnd : Nat) (txt : Tm) (tStart : Nat) : Tm × Nat :=
  let ft := frozenFold (fun i t => ops.tLayer i t tMask) cfg.numT
    cfg.fixed_t_layer txt tStart
  (condFold (fun i t => ops.tLayer i t tMask) cfg.numT ft.2 tEnd ft.1, ft.2)

/-- Embeds lines 652-681: the frozen visual loop followed by the normal
visual loop, both seeing the already-advanced text stream. -/
def advanceVisual (cfg : EncConfig) (ops : EncOps Tm Vm Mt Mt2 Mv Cm)
    (iMask : Mv) (txt : Tm) (tMask2 : Mt2) (vEnd : Nat) (img : Vm)
    (vStart : Nat) : Vm × Nat :=
  let fv := frozenFold (fun i v => ops.vLayer i v iMask txt tMask2) cfg.numV
    cfg.fixed_v_layer img vStart
  (condFold (fun i v => ops.vLayer i v iMask txt tMask2) cfg.numV
    fv.2 vEnd fv.1, fv.2)

/-- Embeds one schedule-entry iteration of `BertEncoder.forward`
(lines 624-767): the two asserts, the frozen and normal text loops, the
frozen and normal visual loops (which see the already-advanced text
stream), the two reshaping branches, the optional fusion block, the
`v_start = v_end; t_start = t_end; count += 1` updates, and the optional
recording of the current states. -/
def entryStep (cfg : EncConfig) (ops : EncOps Tm Vm Mt Mt2 Mv Cm)
    (outputAll : Bool) (st : EncState Tm Vm Mt Mt2 Mv Cm)
    (ids : Nat × Nat) : Except String (EncState Tm Vm Mt Mt2 Mv Cm) :=
  let vEnd := ids.1
  let tEnd := ids.2
  if cfg.fixed_t_layer ≤ tEnd then
    if cfg.fixed_v_layer ≤ vEnd then
      let ta := advanceText cfg ops st.tMask tEnd st.txt st.tStart
      let va := advanceVisual cfg ops st.iMask ta.1 st.tMask2 vEnd st.img
        st.vStart
      let st1 := reshapeStep cfg ops
        { st with txt := ta.1, img := va.1, tStart := ta.2, vStart := va.2 }
      let fu := if cfg.with_coattention then
          fusionFold ops cfg.numC st1.count st1.iMask st1.tMask st1.coMask
            (st1.img, st1.txt)
        else (st1.img, st1.txt)
      let st2 := { st1 with
        txt := fu.2
        img := fu.1
        tStart := tEnd
        vStart := vEnd
        count := st1.count + 1 }
      Except.ok (if outputAll then appendOutputs st2 else st2)
    else Except.error "assert fixed_v_layer <= v_end failed"
  else Except.error "assert fixed_t_layer <= t_end failed"

/-- The initial loop state of `BertEncoder.forward` (lines 610-618):
`v_start = t_start = count = 0`, empty encoded-layer lists. -/
def initEncState (txt : Tm) (img : Vm) (tM : Mt) (tM2 : Mt2) (iM : Mv)
    (cM : Cm) : EncState Tm Vm Mt Mt2 Mv Cm :=
  ⟨txt, img, tM, tM2, iM, cM, 0, 0, 0, [], []⟩

/-- The schedule traversal (lines 624-767): a monadic fold of `entryStep`
over `zip(self.v_biattention_id, self.t_biattention_id)`. -/
def schedulePhase (cfg : EncConfig) (ops : EncOps Tm Vm Mt Mt2 Mv Cm)
    (outputAll : Bool) (st : EncState Tm Vm Mt Mt2 Mv Cm) :
    Except String (EncState Tm Vm Mt Mt2 Mv Cm) :=
  (cfg.v_biattention_id.zip cfg.t_biattention_id).foldlM
    (entryStep cfg ops outputAll) st

/-- Embeds the tail loops (lines 769-790): first the remaining visual
layers (which see the post-schedule text stream), then the remaining text
layers.  The encoded-layer lists are not touched here. -/
def tailPhase (cfg : EncConfig) (ops : EncOps Tm Vm Mt Mt2 Mv Cm)
    (st : EncState Tm Vm Mt Mt2 Mv Cm) : EncState Tm Vm Mt Mt2 Mv Cm :=
  let img1 := tailFold (fun i v => ops.vLayer i v st.iMask st.txt st.tMask2)
    cfg.numV st.vStart st.img
  let txt1 := tailFold (fun i t => ops.tLayer i t st.tMask) cfg.numT
    st.tStart st.txt
  { st with txt := txt1, img := img1 }

/-- Embeds `BertEncoder.forward` (lines 595-801): the schedule phase, the
tail loops, and the final recording of lines 792-795, which happens only
when `output_all_encoded_layers` is false. -/
def encoderForward (cfg : EncConfig) (ops : EncOps Tm Vm Mt Mt2 Mv Cm)
    (outputAll : Bool) (txt : Tm) (img : Vm) (tM : Mt) (tM2 : Mt2)
    (iM : Mv) (cM : Cm) : Except String (EncState Tm Vm Mt Mt2 Mv Cm) := do
  let s ← schedulePhase cfg ops outputAll (initEncState txt img tM tM2 iM cM)
  let s2 := tailPhase cfg ops s
  Except.ok (if outputAll then s2 else appendOutputs s2)

/-- Embeds `ViLBERTBase.forward` line 1036: `sequence_output_t =
encoded_layers_t[-1]` (`none` models the `IndexError` on an empty list). -/
def sequenceOutputT (st : EncState Tm Vm Mt Mt2 Mv Cm) : Option Tm :=
  st.allT.getLast?

/-- Embeds `ViLBERTBase.forward` line 1037: `sequence_output_v =
encoded_layers_v[-1]`. -/
def sequenceOutputV (st : EncState Tm Vm Mt Mt2 Mv Cm) : Option Vm :=
  st.allV.getLast?

/-- Reference definition following the spec's words for claim C7: running
the full text self-attention stack alone on the text input, layers `0` to
`n-1` in order. -/
def specFullTextStack (ops : EncOps Tm Vm Mt Mt2 Mv Cm) (n : Nat) (txt : Tm)
    (tM : Mt) : Tm :=
  (List.range n).foldl (fun t i => ops.tLayer i t tM) txt

/-- Reference definition following the spec's words for claim C7: running
the full visual self-attention stack alone on the visual input (the text
arguments are the unadvanced inputs; the claim's scenario has the visual
layers independent of them). -/
def specFullVisualStack (ops : EncOps Tm Vm Mt Mt2 Mv Cm) (n : Nat)
    (img : Vm) (iM : Mv) (txt : Tm) (tM2 : Mt2) : Vm :=
  (List.range n).foldl (fun v i => ops.vLayer i v iM txt tM2) img

/-- Non-decreasing chain of schedule pairs `(v_end, t_end)` starting from a
given pair of current positions. -/
def schedLeChain : Nat × Nat → List (Nat × Nat) → Prop
  | _, [] => True
  | p, q :: rest => p.1 ≤ q.1 ∧ p.2 ≤ q.2 ∧ schedLeChain q rest

/-- Marker instantiation of the layer semantics: stream states are the
lists of layer indices applied so far (most recent first), masks are
trivial, the connection and reshape primitives are identities.  Used to
evaluate the encoder's control flow on concrete inputs. -/
def markerOps : EncOps (List Nat) (List Nat) Unit Unit Unit Unit :=
  ⟨fun i t _ => i :: t, fun i v _ _ _ => i :: v,
   fun _ v _ t _ _ _ => (v, t),
   id, id, id, id, id, fun _ t => t, fun _ m => m⟩

/-- A spec-valid encoder configuration (frozen text boundary 2 equals the
first text checkpoint, schedules non-decreasing) with two text layers and
no visual layers, exhibiting the frozen-loop layer skip. -/
def skipDemoCfg : EncConfig :=
  ⟨false, false, false, [0], [2], 2, 0, 2, 0, 1⟩

/-- A small configuration with one fusion checkpoint at depth 1 for both
streams, two layers per stream, co-attention enabled. -/
def smallDemoCfg : EncConfig :=
  ⟨false, true, false, [1], [1], 0, 0, 2, 2, 1⟩

/-- A small configuration with both `in_batch_pairs` and `fast_mode`
enabled. -/
def bothFlagsCfg : EncConfig :=
  ⟨true, true, true, [1], [1], 0, 0, 1, 1, 1⟩

/-! ## Theorems -/

/-- Length of the in-batch-pairs visual expansion. -/
theorem flatten_replicate_length (B : Nat) (l : List α) :
    ((List.replicate B l).flatten).length = B * l.length := by
  simp [List.length_flatten, List.map_replicate, List.sum_replicate]

/-- Length of the in-batch-pairs text expansion. -/
theorem flatten_map_replicate_length (B : Nat) (txt : List α) :
    ((txt.map (List.replicate B)).flatten).length = txt.length * B := by
  induction txt with
  | nil => simp
  | cons x xs ih =>
    simp only [List.map_cons, List.flatten_cons, List.length_append,
      List.length_replicate, List.length_cons, ih]
    ring

/-- Flat entry `j * len + k` of the visual expansion is original entry `k`. -/
theorem flatten_replicate_getElem (l : List α) (B j k : Nat)
    (hj : j < B) (hk : k < l.length) :
    ((List.replicate B l).flatten)[j * l.length + k]? = l[k]? := by
  induction j generalizing B with
  | zero =>
    obtain ⟨B', rfl⟩ : ∃ B', B = B' + 1 := ⟨B - 1, by omega⟩
    have h0 : 0 * l.length + k = k := by ring
    rw [List.replicate_succ, List.flatten_cons, h0, List.getElem?_append, if_pos hk]
  | succ j ih =>
    obtain ⟨B', rfl⟩ : ∃ B', B = B' + 1 := ⟨B - 1, by omega⟩
    have hsplit : (j + 1) * l.length + k = l.length + (j * l.length + k) := by ring
    rw [List.replicate_succ, List.flatten_cons, hsplit, List.getElem?_append,
      if_neg (by omega)]
    have hsub : l.length + (j * l.length + k) - l.length = j * l.length + k := by omega
    rw [hsub]
    exact ih B' (by omega)

/-- Flat entry `j * B + k` of the text expansion is original entry `j`. -/
theorem flatten_map_replicate_getElem (txt : List α) (B j k : Nat)
    (hk : k < B) (hj : j < txt.length) :
    ((txt.map (List.replicate B)).flatten)[j * B + k]? = txt[j]? := by
  induction txt generalizing j with
  | nil => simp at hj
  | cons x xs ih =>
    cases j with
    | zero =>
      have h0 : 0 * B + k = k := by ring
      rw [List.map_cons, List.flatten_cons, h0, List.getElem?_append,
        if_pos (by simpa using hk)]
      simp [List.getElem?_replicate, hk]
    | succ j =>
      have hsplit : (j + 1) * B + k = B + (j * B + k) := by ring
      rw [List.map_cons, List.flatten_cons, hsplit, List.getElem?_append,
        if_neg (by simp)]
      have hsub : B + (j * B + k) - (List.replicate B x).length = j * B + k := by
        simp
      rw [hsub]
      have hj' : j < xs.length := by simpa using hj
      simpa using ih j hj'

/-- Claim C5: with `in_batch_pairs` enabled, on the first schedule entry a
batch of size `B` is expanded to size exactly `B * B`, and for every pair
`(j, k)` with `j, k < B` the flat entry `j * B + k` holds text example `j`
(the `unsqueeze(1)` expansion, also used for the text mask and the
co-attention mask) paired with visual example `k` (the `unsqueeze(0)`
expansion, also used for the image mask); hence every pair occurs exactly
once. -/
theorem claim_C5_pairwise_expansion (α β : Type) (txt : List α) (img : List β)
    (B j k : Nat) (ht : txt.length = B) (hi : img.length = B)
    (hj : j < B) (hk : k < B) :
    (inBatchPairsImage B img).length = B * B ∧
    (inBatchPairsText B txt).length = B * B ∧
    (inBatchPairsImage B img)[j * B + k]? = img[k]? ∧
    (inBatchPairsText B txt)[j * B + k]? = txt[j]? := by
  refine ⟨?_, ?_, ?_, ?_⟩
  · rw [inBatchPairsImage, flatten_replicate_length, hi]
  · rw [inBatchPairsText, flatten_map_replicate_length, ht]
  · have h := flatten_replicate_getElem img B j k hj (by omega)
    rw [hi] at h
    exact h
  · exact flatten_map_replicate_getElem txt B j k hk (by omega)

/-- Witness for claim C5 at batch size 2, pair `(j, k) = (1, 0)`. -/
theorem claim_C5_pairwise_expansion_witness :
    (inBatchPairsImage 2 [30, 40]).length = 2 * 2 ∧
    (inBatchPairsText 2 [10, 20]).length = 2 * 2 ∧
    (inBatchPairsImage 2 [30, 40])[1 * 2 + 0]? = [30, 40][0]? ∧
    (inBatchPairsText 2 [10, 20])[1 * 2 + 0]? = [10, 20][1]? :=
  claim_C5_pairwise_expansion Nat Nat [10, 20] [30, 40] 2 1 0 rfl rfl
    (by decide) (by decide)

/-- Claim C6: with `fast_mode` enabled and a text batch of size 1, the text
embedding (and its mask) is broadcast along the batch axis to the visual
batch size `N`, every one of the `N` slices being the original single
example, without forming a cross-product (the result has size `N`, not
`N * N`). -/
theorem claim_C6_fast_mode_broadcast (α : Type) (t m : α) (N : Nat) :
    tensorExpandBatch N [t] = some (List.replicate N t) ∧
    tensorExpandBatch N [m] = some (List.replicate N m) ∧
    (List.replicate N t).length = N ∧
    (∀ x ∈ List.replicate N t, x = t) ∧
    (∀ x ∈ List.replicate N m, x = m) := by
  refine ⟨rfl, rfl, List.length_replicate N t, ?_, ?_⟩ <;>
    exact fun x hx => List.eq_of_mem_replicate hx

/-- Claim C8: for a 0/1 attention-mask row, the additive bias
`(1 - m) * -10000` is exactly `0` wherever the mask entry is `1` and exactly
`-10000` wherever it is `0`, for both the text and the image extended
masks. -/
theorem claim_C8_mask_semantics (row : List ℚ) (h : ∀ m ∈ row, m = 0 ∨ m = 1) :
    extendedAttentionMask row =
      row.map (fun m => if m = 1 then 0 else (-10000)) ∧
    extendedImageAttentionMask row =
      row.map (fun m => if m = 1 then 0 else (-10000)) := by
  constructor <;>
  · apply List.map_congr_left
    intro a ha
    rcases h a ha with h0 | h1
    · subst h0; norm_num
    · subst h1; norm_num

/-- Witness for claim C8 on the row `[1, 0]`. -/
theorem claim_C8_mask_semantics_witness :
    extendedAttentionMask [1, 0] =
      [(1 : ℚ), 0].map (fun m => if m = 1 then 0 else (-10000)) ∧
    extendedImageAttentionMask [1, 0] =
      [(1 : ℚ), 0].map (fun m => if m = 1 then 0 else (-10000)) :=
  claim_C8_mask_semantics [1, 0] (by
    intro m hm
    simp only [List.mem_cons, List.not_mem_nil, or_false] at hm
    rcases hm with rfl | rfl
    · right; rfl
    · left; rfl)

/-- Claim C3 counterexample: constructing the pooled-vector combination step
with `fusion_method = "xor"` does NOT fail at construction time: both
`BertPreTrainingHeads.__init__` and `ViLBERTExpert.__init__` succeed,
storing the unchecked string. -/
theorem claim_C3_counterexample :
    bertPreTrainingHeadsInit xorMethodConfig = Except.ok ⟨"xor"⟩ ∧
    vilbertExpertInit xorMethodConfig = Except.ok ⟨"xor"⟩ ∧
    "xor" ≠ "sum" ∧ "xor" ≠ "mul" :=
  ⟨rfl, rfl, by decide, by decide⟩

/-- Claim C3 (amended): construction always succeeds for any
`fusion_method`; the configuration error for a method outside
`{"sum", "mul"}` is raised only at forward time, by the combination step
itself; `"sum"` adds the pooled text and visual vectors elementwise and
`"mul"` multiplies them elementwise, in both cases before the downstream
dropout. -/
theorem claim_C3_amended (method : String) (hs : method ≠ "sum")
    (hm : method ≠ "mul") (n : Nat) (dropout : (Fin n → ℚ) → Fin n → ℚ)
    (t v : Fin n → ℚ) (c : BertModelConfig) :
    bertPreTrainingHeadsInit c = Except.ok ⟨c.fusion_method⟩ ∧
    vilbertExpertInit c = Except.ok ⟨c.fusion_method⟩ ∧
    pooledFusionCombine n method dropout t v = Except.error "AssertionError" ∧
    pooledFusionCombine n "sum" dropout t v =
      Except.ok (dropout (fun i => t i + v i)) ∧
    pooledFusionCombine n "mul" dropout t v =
      Except.ok (dropout (fun i => t i * v i)) := by
  refine ⟨rfl, rfl, ?_, ?_, ?_⟩
  · simp [pooledFusionCombine, hs, hm]
  · simp [pooledFusionCombine]
  · simp [pooledFusionCombine]

/-- Witness for the amended claim C3 at `method = "xor"`. -/
theorem claim_C3_amended_witness :
    bertPreTrainingHeadsInit xorMethodConfig =
      Except.ok ⟨xorMethodConfig.fusion_method⟩ ∧
    vilbertExpertInit xorMethodConfig =
      Except.ok ⟨xorMethodConfig.fusion_method⟩ ∧
    pooledFusionCombine 1 "xor" id (fun _ => 2) (fun _ => 3) =
      Except.error "AssertionError" ∧
    pooledFusionCombine 1 "sum" id (fun _ => 2) (fun _ => 3) =
      Except.ok (id (fun i => (fun _ : Fin 1 => (2 : ℚ)) i + (fun _ : Fin 1 => (3 : ℚ)) i)) ∧
    pooledFusionCombine 1 "mul" id (fun _ => 2) (fun _ => 3) =
      Except.ok (id (fun i => (fun _ : Fin 1 => (2 : ℚ)) i * (fun _ : Fin 1 => (3 : ℚ)) i)) :=
  claim_C3_amended "xor" (by decide) (by decide) 1 id
    (fun _ => 2) (fun _ => 3) xorMethodConfig

/-- Claim C2 counterexample: two inputs that differ only in a nonzero
co-attention mask (one constant 3, the other constant 0, with
`use_co_attention_mask = True` against `False`) produce IDENTICAL
fusion-block outputs: the cross-stream attention scores never include the
co-attention mask, because its addition is commented out in
`BertBiAttention.forward`. -/
theorem claim_C2_counterexample :
    ((fun _ _ => (3 : ℝ)) : Fin 1 → Fin 1 → ℝ) ≠ (fun _ _ => (0 : ℝ)) ∧
    bertBiAttentionForward 1 1 1 1 1 1 demoBiWeights
        (fun _ _ => 1) (fun _ => 0) (fun _ _ => 2) (fun _ => 0)
        (fun _ _ => 3) true =
      bertBiAttentionForward 1 1 1 1 1 1 demoBiWeights
        (fun _ _ => 1) (fun _ => 0) (fun _ _ => 2) (fun _ => 0)
        (fun _ _ => 0) false := by
  constructor
  · intro hEq
    have h3 : (3 : ℝ) = 0 := congrFun (congrFun hEq ⟨0, by decide⟩) ⟨0, by decide⟩
    norm_num at h3
  · rfl

/-- Claim C2 (amended): the co-attention mask is scaled by the fixed
multiplier 5.0 before the encoder runs, but the bidirectional fusion block
never adds it to its cross-stream attention scores (the additions are
commented out, and the encoder always passes `use_co_attention_mask =
False`); consequently the fusion-block outputs are identical for any two
co-attention masks and any values of the use flag. -/
theorem claim_C2_amended (H s R W dv dt : Nat)
    (wts : BiAttentionWeights H s dv dt)
    (input1 : Fin R → Fin dv → ℝ) (mask1 : Fin R → ℝ)
    (input2 : Fin W → Fin dt → ℝ) (mask2 : Fin W → ℝ)
    (co co' : Fin R → Fin W → ℝ) (u u' : Bool) (c : List (List ℚ)) :
    bertBiAttentionForward H s R W dv dt wts input1 mask1 input2 mask2 co u =
      bertBiAttentionForward H s R W dv dt wts input1 mask1 input2 mask2 co' u' ∧
    extendCoAttentionMask c = c.map (fun row => row.map (fun x => x * 5)) :=
  ⟨rfl, rfl⟩

/-- Claim C4 counterexample: `BertEncoder.__init__` accepts a strictly
decreasing schedule without any error — the violating schedule is silently
accepted at construction time. -/
theorem claim_C4_counterexample :
    bertEncoderInit decreasingScheduleConfig =
      Except.ok ⟨false, true, false, [2, 1], [2, 1], 0, 0, 3, 3, 2⟩ ∧
    nonDecreasing decreasingScheduleConfig.t_biattention_id = false ∧
    nonDecreasing decreasingScheduleConfig.v_biattention_id = false :=
  ⟨rfl, rfl, rfl⟩

/-- Claim C4 (amended): `BertEncoder.__init__` performs no schedule
validation at all; construction succeeds for every schedule, monotone or
not, whenever the three head-divisibility checks pass. -/
theorem claim_C4_amended (c : BertModelConfig)
    (h1 : c.hidden_size % c.num_attention_heads = 0)
    (h2 : c.v_hidden_size % c.v_num_attention_heads = 0)
    (h3 : c.bi_hidden_size % c.bi_num_attention_heads = 0) :
    bertEncoderInit c = Except.ok ⟨c.fast_mode, c.with_coattention,
      c.in_batch_pairs, c.v_biattention_id, c.t_biattention_id,
      c.fixed_t_layer, c.fixed_v_layer, c.num_hidden_layers,
      c.v_num_hidden_layers, c.v_biattention_id.length⟩ := by
  simp [bertEncoderInit, bertSelfAttentionInit, bertImageSelfAttentionInit,
    bertBiAttentionInit, h1, h2, h3, Bind.bind, Except.bind]

/-- Witness for the amended claim C4 at the decreasing-schedule
configuration. -/
theorem claim_C4_amended_witness :
    bertEncoderInit decreasingScheduleConfig =
      Except.ok ⟨decreasingScheduleConfig.fast_mode,
        decreasingScheduleConfig.with_coattention,
        decreasingScheduleConfig.in_batch_pairs,
        decreasingScheduleConfig.v_biattention_id,
        decreasingScheduleConfig.t_biattention_id,
        decreasingScheduleConfig.fixed_t_layer,
        decreasingScheduleConfig.fixed_v_layer,
        decreasingScheduleConfig.num_hidden_layers,
        decreasingScheduleConfig.v_num_hidden_layers,
        decreasingScheduleConfig.v_biattention_id.length⟩ :=
  claim_C4_amended decreasingScheduleConfig rfl rfl rfl

/-- Unfolding of `condFold` at `n + 1`. -/
theorem condFold_succ (f : Nat → α → α) (n a b : Nat) (x : α) :
    condFold f (n + 1) a b x =
      if a ≤ n ∧ n < b then f n (condFold f n a b x)
      else condFold f n a b x := by
  simp only [condFold, List.range_succ, List.foldl_append, List.foldl_cons,
    List.foldl_nil]

/-- Unfolding of `tailFold` at `n + 1`. -/
theorem tailFold_succ (f : Nat → α → α) (n a : Nat) (x : α) :
    tailFold f (n + 1) a x =
      if a ≤ n then f n (tailFold f n a x) else tailFold f n a x := by
  simp only [tailFold, List.range_succ, List.foldl_append, List.foldl_cons,
    List.foldl_nil]

/-- Unfolding of `frozenFold` at `n + 1`. -/
theorem frozenFold_succ (f : Nat → α → α) (fixed n : Nat) (x : α) (s : Nat) :
    frozenFold f (n + 1) fixed x s =
      if (frozenFold f n fixed x s).2 ≤ n ∧ n < fixed
      then (f n (frozenFold f n fixed x s).1, fixed)
      else frozenFold f n fixed x s := by
  simp only [frozenFold, List.range_succ, List.foldl_append, List.foldl_cons,
    List.foldl_nil]

/-- A conditional fold whose window starts at or beyond `n` is the
identity. -/
theorem condFold_id_of_le (f : Nat → α → α) (b : Nat) :
    ∀ n a x, n ≤ a → condFold f n a b x = x := by
  intro n
  induction n with
  | zero => intro a x _; rfl
  | succ n ih =>
    intro a x h
    rw [condFold_succ, if_neg (by omega), ih a x (by omega)]

/-- A conditional fold over an empty window is the identity. -/
theorem condFold_empty (f : Nat → α → α) (n a b : Nat) (x : α) (h : b ≤ a) :
    condFold f n a b x = x := by
  induction n with
  | zero => rfl
  | succ n ih => rw [condFold_succ, if_neg (by omega), ih]

/-- The upper window bound can be replaced by any other bound at least
`n`. -/
theorem condFold_congr_b (f : Nat → α → α) (a b b' : Nat) :
    ∀ n x, n ≤ b → n ≤ b' → condFold f n a b x = condFold f n a b' x := by
  intro n
  induction n with
  | zero => intro x _ _; rfl
  | succ n ih =>
    intro x hb hb'
    rw [condFold_succ, condFold_succ, ih x (by omega) (by omega)]
    by_cases ha : a ≤ n
    · rw [if_pos ⟨ha, by omega⟩, if_pos ⟨ha, by omega⟩]
    · rw [if_neg (by omega), if_neg (by omega)]

/-- Splitting a conditional fold at an intermediate bound. -/
theorem condFold_split (f : Nat → α → α) :
    ∀ n a b c x, a ≤ b → b ≤ c →
      condFold f n a c x = condFold f n b c (condFold f n a b x) := by
  intro n
  induction n with
  | zero => intro a b c x _ _; rfl
  | succ n ih =>
    intro a b c x hab hbc
    rw [condFold_succ, condFold_succ, condFold_succ]
    by_cases h1 : a ≤ n ∧ n < b
    · have hnb : n < b := h1.2
      have hnc : n < c := by omega
      rw [if_pos h1,
        condFold_id_of_le f c n b (f n (condFold f n a b x)) (by omega),
        if_neg (show ¬(b ≤ n ∧ n < c) by omega),
        if_pos (show a ≤ n ∧ n < c from ⟨h1.1, hnc⟩),
        condFold_congr_b f a c b n x (by omega) (by omega)]
    · rw [if_neg h1, ← ih a b c x hab hbc]
      by_cases hb : b ≤ n
      · by_cases hc : n < c
        · rw [if_pos (show b ≤ n ∧ n < c from ⟨hb, hc⟩),
            if_pos (show a ≤ n ∧ n < c from ⟨by omega, hc⟩)]
        · rw [if_neg (show ¬(a ≤ n ∧ n < c) by omega),
            if_neg (show ¬(b ≤ n ∧ n < c) by omega)]
      · rw [if_neg (show ¬(a ≤ n ∧ n < c) by omega),
          if_neg (show ¬(b ≤ n ∧ n < c) by omega)]

/-- A conditional fold over a one-element window applies exactly that
layer. -/
theorem condFold_single (f : Nat → α → α) :
    ∀ n a x, a < n → condFold f n a (a + 1) x = f a x := by
  intro n
  induction n with
  | zero => intro a x h; exact absurd h (Nat.not_lt_zero a)
  | succ n ih =>
    intro a x h
    rw [condFold_succ]
    by_cases hn : a = n
    · rw [if_pos (show a ≤ n ∧ n < a + 1 from ⟨by omega, by omega⟩),
        condFold_id_of_le f (a + 1) n a x (by omega), hn]
    · rw [if_neg (show ¬(a ≤ n ∧ n < a + 1) by omega), ih a x (by omega)]

/-- A conditional fold over the full window is the plain layer fold. -/
theorem condFold_full (f : Nat → α → α) :
    ∀ n x, condFold f n 0 n x = (List.range n).foldl (fun y i => f i y) x := by
  intro n
  induction n with
  | zero => intro x; rfl
  | succ n ih =>
    intro x
    rw [condFold_succ, if_pos ⟨Nat.zero_le n, Nat.lt_succ_self n⟩,
      condFold_congr_b f 0 (n + 1) n n x (by omega) (le_refl n), ih x,
      List.range_succ, List.foldl_append, List.foldl_cons, List.foldl_nil]

/-- The tail loop is the conditional fold whose window ends at the stack
depth. -/
theorem tailFold_eq_condFold (f : Nat → α → α) (a : Nat) :
    ∀ n x, tailFold f n a x = condFold f n a n x := by
  intro n
  induction n with
  | zero => intro x; rfl
  | succ n ih =>
    intro x
    rw [tailFold_succ, condFold_succ, ih,
      condFold_congr_b f a (n + 1) n n x (by omega) (le_refl n)]
    by_cases ha : a ≤ n
    · rw [if_pos ha, if_pos ⟨ha, by omega⟩]
    · rw [if_neg ha, if_neg (by omega)]

/-- Characterization of the frozen warm-up loop: because the loop body
reassigns the start bound to `fixed`, AT MOST ONE layer (the one at the
current start position) is ever applied, regardless of how many indices lie
in `[start, fixed)`. -/
theorem frozenFold_char (f : Nat → α → α) (fixed : Nat) :
    ∀ n x s, frozenFold f n fixed x s =
      if s < fixed ∧ s < n then (f s x, fixed) else (x, s) := by
  intro n
  induction n with
  | zero =>
    intro x s
    rw [if_neg (by omega)]
    rfl
  | succ n ih =>
    intro x s
    rw [frozenFold_succ, ih x s]
    by_cases h1 : s < fixed ∧ s < n
    · rw [if_pos h1]
      dsimp only
      rw [if_neg (by omega), if_pos ⟨h1.1, by omega⟩]
    · rw [if_neg h1]
      dsimp only
      by_cases h2 : s ≤ n ∧ n < fixed
      · rw [if_pos h2]
        have hsn : s = n := by omega
        subst hsn
        rw [if_pos ⟨by omega, by omega⟩]
      · rw [if_neg h2, if_neg (by omega)]

/-- Pointwise congruence of conditional folds in the layer function. -/
theorem condFold_congr_f (f g : Nat → α → α) (hfg : ∀ i x, f i x = g i x) :
    ∀ n a b x, condFold f n a b x = condFold g n a b x := by
  intro n
  induction n with
  | zero => intro a b x; rfl
  | succ n ih =>
    intro a b x
    rw [condFold_succ, condFold_succ, ih]
    by_cases h : a ≤ n ∧ n < b
    · rw [if_pos h, if_pos h, hfg]
    · rw [if_neg h, if_neg h]

/-- Claim C1 (the code slip): with the spec-valid configuration
`fixed_t_layer = 2`, single text checkpoint `t_end = 2`, two text layers,
the encoder applies ONLY text layer 0 (in no-grad mode) and never applies
text layer 1 in any mode — because the frozen loop assigns
`t_start = fixed_t_layer` inside its own body, emptying the condition for
the remaining frozen indices — whereas the claim (and the spec) requires
every layer index in `[0, t_end)` to be traversed, which would give the
full-stack result. -/
theorem claim_C1_frozen_range_skipped :
    (encoderForward skipDemoCfg markerOps false [] [] () () () ()).map
        (fun s => s.txt) = Except.ok [0] ∧
    specFullTextStack markerOps skipDemoCfg.numT [] () = [1, 0] ∧
    ([0] : List Nat) ≠ [1, 0] :=
  ⟨rfl, rfl, by decide⟩

/-- Claim C7 counterexample: at the same spec-valid configuration
(`with_coattention = False`, both batch-reshaping flags disabled,
`fixed_t_layer = 2 ≤` first checkpoint, non-decreasing schedule) the
encoder's final text sequence `[0]` differs from the result `[1, 0]` of
running the full text stack alone, so the claimed equivalence fails as
stated. -/
theorem claim_C7_counterexample :
    skipDemoCfg.with_coattention = false ∧
    skipDemoCfg.in_batch_pairs = false ∧
    skipDemoCfg.fast_mode = false ∧
    (encoderForward skipDemoCfg markerOps false [] [] () () () ()).map
        (fun s => (s.txt, s.img)) = Except.ok ([0], []) ∧
    specFullTextStack markerOps skipDemoCfg.numT [] () = [1, 0] ∧
    ([0] : List Nat) ≠ [1, 0] :=
  ⟨rfl, rfl, rfl, rfl, rfl, by decide⟩

/-- The per-entry step succeeds exactly when the two asserts hold. -/
theorem entryStep_ok (cfg : EncConfig) (ops : EncOps Tm Vm Mt Mt2 Mv Cm)
    (outputAll : Bool) (st : EncState Tm Vm Mt Mt2 Mv Cm) (p : Nat × Nat)
    (h1 : cfg.fixed_t_layer ≤ p.2) (h2 : cfg.fixed_v_layer ≤ p.1) :
    ∃ st', entryStep cfg ops outputAll st p = Except.ok st' := by
  simp only [entryStep]
  rw [if_pos h1, if_pos h2]
  exact ⟨_, rfl⟩

/-- The schedule fold succeeds when every entry satisfies the asserts. -/
theorem foldlM_entryStep_ok (cfg : EncConfig)
    (ops : EncOps Tm Vm Mt Mt2 Mv Cm) (outputAll : Bool) :
    ∀ (L : List (Nat × Nat)) (st : EncState Tm Vm Mt Mt2 Mv Cm),
      (∀ p ∈ L, cfg.fixed_t_layer ≤ p.2 ∧ cfg.fixed_v_layer ≤ p.1) →
      ∃ st', L.foldlM (entryStep cfg ops outputAll) st = Except.ok st' := by
  intro L
  induction L with
  | nil => intro st _; exact ⟨st, rfl⟩
  | cons p rest ih =>
    intro st hall
    obtain ⟨h1, h2⟩ := hall p (List.mem_cons_self p rest)
    obtain ⟨st1, hst1⟩ := entryStep_ok cfg ops outputAll st p h1 h2
    obtain ⟨st', hst'⟩ := ih st1 (fun q hq => hall q (List.mem_cons_of_mem p hq))
    refine ⟨st', ?_⟩
    rw [List.foldlM_cons, hst1]
    exact hst'

/-- The whole forward pass succeeds when every schedule entry satisfies the
asserts — in particular no flag combination, including `in_batch_pairs` and
`fast_mode` both enabled, raises a configuration error. -/
theorem encoderForward_ok (cfg : EncConfig) (ops : EncOps Tm Vm Mt Mt2 Mv Cm)
    (outputAll : Bool) (txt : Tm) (img : Vm) (tM : Mt) (tM2 : Mt2) (iM : Mv)
    (cM : Cm)
    (hassert : ∀ p ∈ cfg.v_biattention_id.zip cfg.t_biattention_id,
      cfg.fixed_t_layer ≤ p.2 ∧ cfg.fixed_v_layer ≤ p.1) :
    ∃ r, encoderForward cfg ops outputAll txt img tM tM2 iM cM =
      Except.ok r := by
  obtain ⟨s, hs⟩ := foldlM_entryStep_ok cfg ops outputAll
    (cfg.v_biattention_id.zip cfg.t_biattention_id)
    (initEncState txt img tM tM2 iM cM) hassert
  refine ⟨if outputAll then tailPhase cfg ops s
    else appendOutputs (tailPhase cfg ops s), ?_⟩
  simp only [encoderForward, schedulePhase]
  rw [hs]
  rfl

/-- Claim C10: with `in_batch_pairs` and `fast_mode` both enabled, no
configuration error is raised (the forward pass succeeds whenever the
per-entry asserts hold), and on the first schedule entry the reshaping step
is the sequential composition of the two non-exclusive `if` branches: the
pairwise expansion executes first and the fast-mode broadcast then executes
on the already-expanded tensors. -/
theorem claim_C10_both_flags (cfg : EncConfig)
    (ops : EncOps Tm Vm Mt Mt2 Mv Cm) (outputAll : Bool) (txt : Tm)
    (img : Vm) (tM : Mt) (tM2 : Mt2) (iM : Mv) (cM : Cm)
    (st : EncState Tm Vm Mt Mt2 Mv Cm)
    (hpair : cfg.in_batch_pairs = true) (hfast : cfg.fast_mode = true)
    (hcount : st.count = 0)
    (hassert : ∀ p ∈ cfg.v_biattention_id.zip cfg.t_biattention_id,
      cfg.fixed_t_layer ≤ p.2 ∧ cfg.fixed_v_layer ≤ p.1) :
    reshapeStep cfg ops st = fastStep ops (pairsStep ops st) ∧
    ∃ r, encoderForward cfg ops outputAll txt img tM tM2 iM cM =
      Except.ok r := by
  refine ⟨?_, encoderForward_ok cfg ops outputAll txt img tM tM2 iM cM hassert⟩
  simp only [reshapeStep]
  rw [if_pos (show st.count = 0 ∧ cfg.in_batch_pairs = true from ⟨hcount, hpair⟩)]
  have hc : (pairsStep ops st).count = st.count := rfl
  rw [if_pos (show (pairsStep ops st).count = 0 ∧ cfg.fast_mode = true from
    ⟨hc.trans hcount, hfast⟩)]

/-- Witness for claim C10 on a concrete both-flags configuration. -/
theorem claim_C10_both_flags_witness :
    reshapeStep bothFlagsCfg markerOps (initEncState [5] [7] () () () ()) =
      fastStep markerOps (pairsStep markerOps (initEncState [5] [7] () () () ())) ∧
    ∃ r, encoderForward bothFlagsCfg markerOps false [5] [7] () () () () =
      Except.ok r :=
  claim_C10_both_flags bothFlagsCfg markerOps false [5] [7] () () () ()
    (initEncState [5] [7] () () () ()) rfl rfl rfl (by decide)

/-- Destructuring a successful `Except` bind. -/
theorem except_bind_ok {ε α β : Type} {x : Except ε α} {f : α → Except ε β}
    {b : β} (h : x >>= f = Except.ok b) :
    ∃ a, x = Except.ok a ∧ f a = Except.ok b := by
  cases x with
  | error e => exact absurd h (by simp [Bind.bind, Except.bind])
  | ok a => exact ⟨a, rfl, h⟩

/-- The reshaping step never touches the encoded-layer lists. -/
theorem reshapeStep_lists (cfg : EncConfig) (ops : EncOps Tm Vm Mt Mt2 Mv Cm)
    (s : EncState Tm Vm Mt Mt2 Mv Cm) :
    (reshapeStep cfg ops s).allT = s.allT ∧
    (reshapeStep cfg ops s).allV = s.allV := by
  simp only [reshapeStep]
  split_ifs <;> exact ⟨rfl, rfl⟩

/-- With recording enabled, a successful schedule entry leaves the current
stream states as the last recorded entries. -/
theorem entryStep_true_append (cfg : EncConfig)
    (ops : EncOps Tm Vm Mt Mt2 Mv Cm) (st : EncState Tm Vm Mt Mt2 Mv Cm)
    (p : Nat × Nat) (st' : EncState Tm Vm Mt Mt2 Mv Cm)
    (h : entryStep cfg ops true st p = Except.ok st') :
    st'.allT.getLast? = some st'.txt ∧ st'.allV.getLast? = some st'.img := by
  simp only [entryStep] at h
  by_cases h1 : cfg.fixed_t_layer ≤ p.2
  · rw [if_pos h1] at h
    by_cases h2 : cfg.fixed_v_layer ≤ p.1
    · rw [if_pos h2] at h
      have h3 := Except.ok.inj h
      subst h3
      rw [if_pos trivial]
      exact ⟨List.getLast?_concat _, List.getLast?_concat _⟩
    · rw [if_neg h2] at h
      exact absurd h (by simp)
  · rw [if_neg h1] at h
    exact absurd h (by simp)

/-- With recording disabled, a successful schedule entry leaves the
encoded-layer lists untouched. -/
theorem entryStep_false_lists (cfg : EncConfig)
    (ops : EncOps Tm Vm Mt Mt2 Mv Cm) (st : EncState Tm Vm Mt Mt2 Mv Cm)
    (p : Nat × Nat) (st' : EncState Tm Vm Mt Mt2 Mv Cm)
    (h : entryStep cfg ops false st p = Except.ok st') :
    st'.allT = st.allT ∧ st'.allV = st.allV := by
  simp only [entryStep] at h
  by_cases h1 : cfg.fixed_t_layer ≤ p.2
  · rw [if_pos h1] at h
    by_cases h2 : cfg.fixed_v_layer ≤ p.1
    · rw [if_pos h2] at h
      have h3 := Except.ok.inj h
      subst h3
      exact ⟨(reshapeStep_lists cfg ops _).1, (reshapeStep_lists cfg ops _).2⟩
    · rw [if_neg h2] at h
      exact absurd h (by simp)
  · rw [if_neg h1] at h
    exact absurd h (by simp)

/-- Over a nonempty schedule with recording enabled, the final recorded
entries are the post-schedule stream states. -/
theorem foldlM_true_last (cfg : EncConfig) (ops : EncOps Tm Vm Mt Mt2 Mv Cm) :
    ∀ (L : List (Nat × Nat)) (st st' : EncState Tm Vm Mt Mt2 Mv Cm),
      L ≠ [] → L.foldlM (entryStep cfg ops true) st = Except.ok st' →
      st'.allT.getLast? = some st'.txt ∧
      st'.allV.getLast? = some st'.img := by
  intro L
  induction L with
  | nil => intro st st' hne _; exact absurd rfl hne
  | cons p rest ih =>
    intro st st' _ h
    rw [List.foldlM_cons] at h
    obtain ⟨st1, hst1, hrest⟩ := except_bind_ok h
    cases rest with
    | nil =>
      have h3 : st1 = st' := Except.ok.inj hrest
      subst h3
      exact entryStep_true_append cfg ops st p st1 hst1
    | cons q rest2 =>
      exact ih st1 st' (by simp) hrest

/-- With recording disabled, the whole schedule fold leaves the
encoded-layer lists untouched. -/
theorem foldlM_false_lists (cfg : EncConfig)
    (ops : EncOps Tm Vm Mt Mt2 Mv Cm) :
    ∀ (L : List (Nat × Nat)) (st st' : EncState Tm Vm Mt Mt2 Mv Cm),
      L.foldlM (entryStep cfg ops false) st = Except.ok st' →
      st'.allT = st.allT ∧ st'.allV = st.allV := by
  intro L
  induction L with
  | nil =>
    intro st st' h
    have h3 : st = st' := Except.ok.inj h
    subst h3
    exact ⟨rfl, rfl⟩
  | cons p rest ih =>
    intro st st' h
    rw [List.foldlM_cons] at h
    obtain ⟨st1, hst1, hrest⟩ := except_bind_ok h
    obtain ⟨ha, hb⟩ := ih st1 st' hrest
    obtain ⟨hc, hd⟩ := entryStep_false_lists cfg ops st p st1 hst1
    exact ⟨ha.trans hc, hb.trans hd⟩

/-- Claim C9: with `output_all_encoded_layers = True` and a nonempty
schedule, the forward pass returns `tailPhase` of the post-schedule state;
the tail loops modify only the stream states, never the encoded-layer
lists, so the `[-1]` selections of `ViLBERTBase.forward` yield the states
recorded immediately after the LAST schedule entry's fusion step — not the
tail-layer outputs.  With `output_all_encoded_layers = False` the lists
stay empty through the schedule and receive exactly one element at the
end: the full-depth final states. -/
theorem claim_C9_sequence_output_selection (cfg : EncConfig)
    (ops : EncOps Tm Vm Mt Mt2 Mv Cm) (txt : Tm) (img : Vm) (tM : Mt)
    (tM2 : Mt2) (iM : Mv) (cM : Cm) (s s' : EncState Tm Vm Mt Mt2 Mv Cm)
    (hzip : cfg.v_biattention_id.zip cfg.t_biattention_id ≠ [])
    (htrue : schedulePhase cfg ops true (initEncState txt img tM tM2 iM cM) =
      Except.ok s)
    (hfalse : schedulePhase cfg ops false (initEncState txt img tM tM2 iM cM) =
      Except.ok s') :
    encoderForward cfg ops true txt img tM tM2 iM cM =
      Except.ok (tailPhase cfg ops s) ∧
    sequenceOutputT (tailPhase cfg ops s) = some s.txt ∧
    sequenceOutputV (tailPhase cfg ops s) = some s.img ∧
    encoderForward cfg ops false txt img tM tM2 iM cM =
      Except.ok (appendOutputs (tailPhase cfg ops s')) ∧
    (appendOutputs (tailPhase cfg ops s')).allT =
      [(tailPhase cfg ops s').txt] ∧
    (appendOutputs (tailPhase cfg ops s')).allV =
      [(tailPhase cfg ops s').img] := by
  obtain ⟨hT, hV⟩ := foldlM_true_last cfg ops _ _ _ hzip htrue
  obtain ⟨hT', hV'⟩ := foldlM_false_lists cfg ops _ _ _ hfalse
  refine ⟨?_, hT, hV, ?_, ?_, ?_⟩
  · simp only [encoderForward, schedulePhase] at htrue ⊢
    rw [htrue]
    rfl
  · simp only [encoderForward, schedulePhase] at hfalse ⊢
    rw [hfalse]
    rfl
  · rw [show (appendOutputs (tailPhase cfg ops s')).allT =
      s'.allT ++ [(tailPhase cfg ops s').txt] from rfl, hT']
    rfl
  · rw [show (appendOutputs (tailPhase cfg ops s')).allV =
      s'.allV ++ [(tailPhase cfg ops s').img] from rfl, hV']
    rfl

/-- Witness for claim C9 on a concrete one-checkpoint configuration with
two layers per stream: the returned `[-1]` entry is the post-fusion state
`[0]`, while the true final state after the tail layers is `[1, 0]`. -/
theorem claim_C9_sequence_output_selection_witness :
    encoderForward smallDemoCfg markerOps true [] [] () () () () =
      Except.ok (tailPhase smallDemoCfg markerOps
        ⟨[0], [0], (), (), (), (), 1, 1, 1, [[0]], [[0]]⟩) ∧
    sequenceOutputT (tailPhase smallDemoCfg markerOps
      ⟨[0], [0], (), (), (), (), 1, 1, 1, [[0]], [[0]]⟩) = some [0] ∧
    sequenceOutputV (tailPhase smallDemoCfg markerOps
      ⟨[0], [0], (), (), (), (), 1, 1, 1, [[0]], [[0]]⟩) = some [0] ∧
    encoderForward smallDemoCfg markerOps false [] [] () () () () =
      Except.ok (appendOutputs (tailPhase smallDemoCfg markerOps
        ⟨[0], [0], (), (), (), (), 1, 1, 1, [], []⟩)) ∧
    (appendOutputs (tailPhase smallDemoCfg markerOps
      ⟨[0], [0], (), (), (), (), 1, 1, 1, [], []⟩)).allT = [[1, 0]] ∧
    (appendOutputs (tailPhase smallDemoCfg markerOps
      ⟨[0], [0], (), (), (), (), 1, 1, 1, [], []⟩)).allV = [[1, 0]] :=
  claim_C9_sequence_output_selection smallDemoCfg markerOps [] [] () () () ()
    ⟨[0], [0], (), (), (), (), 1, 1, 1, [[0]], [[0]]⟩
    ⟨[0], [0], (), (), (), (), 1, 1, 1, [], []⟩
    (by decide) rfl rfl

/-- Recording at most appends to the lists; all other fields pass
through. -/
theorem ifAppend_fields (b : Bool) (s : EncState Tm Vm Mt Mt2 Mv Cm) :
    (if b then appendOutputs s else s).txt = s.txt ∧
    (if b then appendOutputs s else s).img = s.img ∧
    (if b then appendOutputs s else s).tMask = s.tMask ∧
    (if b then appendOutputs s else s).tMask2 = s.tMask2 ∧
    (if b then appendOutputs s else s).iMask = s.iMask ∧
    (if b then appendOutputs s else s).coMask = s.coMask ∧
    (if b then appendOutputs s else s).tStart = s.tStart ∧
    (if b then appendOutputs s else s).vStart = s.vStart := by
  cases b <;> exact ⟨rfl, rfl, rfl, rfl, rfl, rfl, rfl, rfl⟩

/-- With a frozen text boundary of at most one layer, the text advance of a
schedule entry extends the window `[0, a)` to `[0, tEnd)`. -/
theorem advanceText_fst (cfg : EncConfig) (ops : EncOps Tm Vm Mt Mt2 Mv Cm)
    (tM : Mt) (hft : cfg.fixed_t_layer ≤ 1) (tEnd a : Nat) (txt0 : Tm)
    (ha : a ≤ tEnd) (hte : cfg.fixed_t_layer ≤ tEnd) :
    (advanceText cfg ops tM tEnd
        (condFold (fun i t => ops.tLayer i t tM) cfg.numT 0 a txt0) a).1 =
      condFold (fun i t => ops.tLayer i t tM) cfg.numT 0 tEnd txt0 := by
  simp only [advanceText]
  rw [frozenFold_char]
  by_cases hc : a < cfg.fixed_t_layer ∧ a < cfg.numT
  · rw [if_pos hc]
    dsimp only
    have h0 : a = 0 := by omega
    subst h0
    have hf1 : cfg.fixed_t_layer = 1 := by omega
    rw [condFold_empty _ _ _ _ _ (le_refl 0), hf1]
    rw [show ops.tLayer 0 txt0 tM =
      condFold (fun i t => ops.tLayer i t tM) cfg.numT 0 1 txt0 from
      (condFold_single (fun i t => ops.tLayer i t tM) cfg.numT 0 txt0
        (by omega)).symm]
    exact (condFold_split _ cfg.numT 0 1 tEnd txt0 (by omega) (by omega)).symm
  · rw [if_neg hc]
    dsimp only
    exact (condFold_split _ cfg.numT 0 a tEnd txt0 (by omega) ha).symm

/-- With a frozen visual boundary of at most one layer and text-independent
visual layers, the visual advance of a schedule entry extends the window
`[0, a)` to `[0, vEnd)`, regardless of the text state it is handed. -/
theorem advanceVisual_fst (cfg : EncConfig) (ops : EncOps Tm Vm Mt Mt2 Mv Cm)
    (iM : Mv) (tM2 : Mt2) (txt0 : Tm) (hfv : cfg.fixed_v_layer ≤ 1)
    (txtCur : Tm)
    (hv : ∀ i v t t', ops.vLayer i v iM t tM2 = ops.vLayer i v iM t' tM2)
    (vEnd a : Nat) (img0 : Vm) (ha : a ≤ vEnd)
    (hve : cfg.fixed_v_layer ≤ vEnd) :
    (advanceVisual cfg ops iM txtCur tM2 vEnd
        (condFold (fun i v => ops.vLayer i v iM txt0 tM2) cfg.numV 0 a img0)
        a).1 =
      condFold (fun i v => ops.vLayer i v iM txt0 tM2) cfg.numV 0 vEnd
        img0 := by
  simp only [advanceVisual]
  rw [frozenFold_char]
  have hcf : ∀ n a b x,
      condFold (fun i v => ops.vLayer i v iM txtCur tM2) n a b x =
        condFold (fun i v => ops.vLayer i v iM txt0 tM2) n a b x :=
    condFold_congr_f _ _ (fun i x => hv i x txtCur txt0)
  by_cases hc : a < cfg.fixed_v_layer ∧ a < cfg.numV
  · rw [if_pos hc]
    dsimp only
    have h0 : a = 0 := by omega
    subst h0
    have hf1 : cfg.fixed_v_layer = 1 := by omega
    rw [condFold_empty _ _ _ _ _ (le_refl 0), hf1, hcf,
      hv 0 img0 txtCur txt0]
    rw [show ops.vLayer 0 img0 iM txt0 tM2 =
      condFold (fun i v => ops.vLayer i v iM txt0 tM2) cfg.numV 0 1 img0 from
      (condFold_single (fun i v => ops.vLayer i v iM txt0 tM2) cfg.numV 0
        img0 (by omega)).symm]
    exact (condFold_split _ cfg.numV 0 1 vEnd img0 (by omega) (by omega)).symm
  · rw [if_neg hc]
    dsimp only
    rw [hcf]
    exact (condFold_split _ cfg.numV 0 a vEnd img0 (by omega) ha).symm

/-- With co-attention disabled and both reshaping flags off, a schedule
entry reduces to the two stream advances plus the index updates and the
optional recording. -/
theorem entryStep_no_coatt (cfg : EncConfig) (ops : EncOps Tm Vm Mt Mt2 Mv Cm)
    (outputAll : Bool) (st : EncState Tm Vm Mt Mt2 Mv Cm) (p : Nat × Nat)
    (hco : cfg.with_coattention = false) (hpair : cfg.in_batch_pairs = false)
    (hfast : cfg.fast_mode = false)
    (hta : cfg.fixed_t_layer ≤ p.2) (hva : cfg.fixed_v_layer ≤ p.1) :
    entryStep cfg ops outputAll st p =
      Except.ok (
        let ta := advanceText cfg ops st.tMask p.2 st.txt st.tStart
        let va := advanceVisual cfg ops st.iMask ta.1 st.tMask2 p.1 st.img
          st.vStart
        let st2 : EncState Tm Vm Mt Mt2 Mv Cm :=
          { st with
            txt := ta.1
            img := va.1
            tStart := p.2
            vStart := p.1
            count := st.count + 1 }
        if outputAll then appendOutputs st2 else st2) := by
  simp only [entryStep]
  rw [if_pos hta, if_pos hva]
  simp only [reshapeStep, hpair, hfast, hco, Bool.false_eq_true, and_false,
    if_false]

/-- The schedule phase with co-attention disabled, reshaping flags off,
frozen boundaries of at most one layer, a non-decreasing remaining
schedule dominating the frozen boundaries, and text-independent visual
layers: every entry succeeds and the streams stay equal to the conditional
windows `[0, t_start)` and `[0, v_start)` over the original inputs. -/
theorem schedulePhase_no_coatt (cfg : EncConfig)
    (ops : EncOps Tm Vm Mt Mt2 Mv Cm)
    (hco : cfg.with_coattention = false) (hpair : cfg.in_batch_pairs = false)
    (hfast : cfg.fast_mode = false) (hft : cfg.fixed_t_layer ≤ 1)
    (hfv : cfg.fixed_v_layer ≤ 1) (tM : Mt) (tM2 : Mt2) (iM : Mv) (cM : Cm)
    (txt0 : Tm) (img0 : Vm)
    (hv : ∀ i v t t', ops.vLayer i v iM t tM2 = ops.vLayer i v iM t' tM2)
    (outputAll : Bool) :
    ∀ (L : List (Nat × Nat)) (st : EncState Tm Vm Mt Mt2 Mv Cm),
      (∀ p ∈ L, cfg.fixed_t_layer ≤ p.2 ∧ cfg.fixed_v_layer ≤ p.1) →
      schedLeChain (st.vStart, st.tStart) L →
      st.tMask = tM → st.tMask2 = tM2 → st.iMask = iM → st.coMask = cM →
      st.txt = condFold (fun i t => ops.tLayer i t tM) cfg.numT 0
        st.tStart txt0 →
      st.img = condFold (fun i v => ops.vLayer i v iM txt0 tM2) cfg.numV 0
        st.vStart img0 →
      ∃ st', L.foldlM (entryStep cfg ops outputAll) st = Except.ok st' ∧
        st'.tMask = tM ∧ st'.tMask2 = tM2 ∧ st'.iMask = iM ∧
        st'.coMask = cM ∧
        st'.txt = condFold (fun i t => ops.tLayer i t tM) cfg.numT 0
          st'.tStart txt0 ∧
        st'.img = condFold (fun i v => ops.vLayer i v iM txt0 tM2) cfg.numV 0
          st'.vStart img0 := by
  intro L
  induction L with
  | nil =>
    intro st _ _ hm hm2 him hcm ht hi
    exact ⟨st, rfl, hm, hm2, him, hcm, ht, hi⟩
  | cons p rest ih =>
    intro st hall hchain hm hm2 him hcm ht hi
    obtain ⟨hta, hva⟩ := hall p (List.mem_cons_self p rest)
    simp only [schedLeChain] at hchain
    obtain ⟨hcv, hct, hchain'⟩ := hchain
    rw [List.foldlM_cons,
      entryStep_no_coatt cfg ops outputAll st p hco hpair hfast hta hva]
    refine ih _ (fun q hq => hall q (List.mem_cons_of_mem p hq)) ?_ ?_ ?_ ?_
      ?_ ?_ ?_
    · rw [(ifAppend_fields outputAll _).2.2.2.2.2.2.2,
        (ifAppend_fields outputAll _).2.2.2.2.2.2.1]
      exact hchain'
    · exact ((ifAppend_fields outputAll _).2.2.1).trans hm
    · exact ((ifAppend_fields outputAll _).2.2.2.1).trans hm2
    · exact ((ifAppend_fields outputAll _).2.2.2.2.1).trans him
    · exact ((ifAppend_fields outputAll _).2.2.2.2.2.1).trans hcm
    · rw [(ifAppend_fields outputAll _).1,
        (ifAppend_fields outputAll _).2.2.2.2.2.2.1]
      show (advanceText cfg ops st.tMask p.2 st.txt st.tStart).1 =
        condFold (fun i t => ops.tLayer i t tM) cfg.numT 0 p.2 txt0
      rw [hm, ht]
      exact advanceText_fst cfg ops tM hft p.2 st.tStart txt0 hct hta
    · rw [(ifAppend_fields outputAll _).2.1,
        (ifAppend_fields outputAll _).2.2.2.2.2.2.2]
      show (advanceVisual cfg ops st.iMask
          (advanceText cfg ops st.tMask p.2 st.txt st.tStart).1 st.tMask2 p.1
          st.img st.vStart).1 =
        condFold (fun i v => ops.vLayer i v iM txt0 tM2) cfg.numV 0 p.1 img0
      rw [him, hm2, hi]
      exact advanceVisual_fst cfg ops iM tM2 txt0 hfv _ hv p.1 st.vStart img0
        hcv hva

/-- With co-attention disabled, a schedule entry never consults the
connection layers. -/
theorem entryStep_cLayer_irrel (cfg : EncConfig)
    (ops : EncOps Tm Vm Mt Mt2 Mv Cm)
    (cl : Nat → Vm → Mv → Tm → Mt → Cm → Bool → Vm × Tm) (outputAll : Bool)
    (st : EncState Tm Vm Mt Mt2 Mv Cm) (p : Nat × Nat)
    (hco : cfg.with_coattention = false) :
    entryStep cfg { ops with cLayer := cl } outputAll st p =
      entryStep cfg ops outputAll st p := by
  simp only [entryStep, hco, Bool.false_eq_true, if_false]
  rfl

/-- With co-attention disabled, the schedule fold never consults the
connection layers. -/
theorem foldlM_cLayer_irrel (cfg : EncConfig)
    (ops : EncOps Tm Vm Mt Mt2 Mv Cm)
    (cl : Nat → Vm → Mv → Tm → Mt → Cm → Bool → Vm × Tm) (outputAll : Bool)
    (hco : cfg.with_coattention = false) :
    ∀ (L : List (Nat × Nat)) (st : EncState Tm Vm Mt Mt2 Mv Cm),
      L.foldlM (entryStep cfg { ops with cLayer := cl } outputAll) st =
        L.foldlM (entryStep cfg ops outputAll) st := by
  intro L
  induction L with
  | nil => intro st; rfl
  | cons p rest ih =>
    intro st
    rw [List.foldlM_cons, List.foldlM_cons,
      entryStep_cLayer_irrel cfg ops cl outputAll st p hco]
    cases entryStep cfg ops outputAll st p with
    | error e => rfl
    | ok a => exact ih a

/-- With co-attention disabled, the whole forward pass never consults the
connection layers. -/
theorem encoderForward_cLayer_irrel (cfg : EncConfig)
    (ops : EncOps Tm Vm Mt Mt2 Mv Cm)
    (cl : Nat → Vm → Mv → Tm → Mt → Cm → Bool → Vm × Tm) (outputAll : Bool)
    (txt : Tm) (img : Vm) (tM : Mt) (tM2 : Mt2) (iM : Mv) (cM : Cm)
    (hco : cfg.with_coattention = false) :
    encoderForward cfg { ops with cLayer := cl } outputAll txt img tM tM2
        iM cM =
      encoderForward cfg ops outputAll txt img tM tM2 iM cM := by
  simp only [encoderForward, schedulePhase]
  rw [foldlM_cLayer_irrel cfg ops cl outputAll hco]
  rfl

/-- Claim C7 (amended): with `with_coattention = False`, both
batch-reshaping flags disabled, frozen boundaries of at most one layer,
non-decreasing schedules whose entries dominate the frozen boundaries, and
visual layers that do not read the text stream (dynamic gating off), the
encoder's final text and visual sequences equal the results of running each
stream's full self-attention stack independently, and the connection
layers are never consulted (any replacement of them leaves the output
unchanged). -/
theorem claim_C7_amended (cfg : EncConfig) (ops : EncOps Tm Vm Mt Mt2 Mv Cm)
    (txt0 : Tm) (img0 : Vm) (tM : Mt) (tM2 : Mt2) (iM : Mv) (cM : Cm)
    (outputAll : Bool)
    (hco : cfg.with_coattention = false) (hpair : cfg.in_batch_pairs = false)
    (hfast : cfg.fast_mode = false) (hft : cfg.fixed_t_layer ≤ 1)
    (hfv : cfg.fixed_v_layer ≤ 1)
    (hassert : ∀ p ∈ cfg.v_biattention_id.zip cfg.t_biattention_id,
      cfg.fixed_t_layer ≤ p.2 ∧ cfg.fixed_v_layer ≤ p.1)
    (hmono : schedLeChain (0, 0)
      (cfg.v_biattention_id.zip cfg.t_biattention_id))
    (hv : ∀ i v t t', ops.vLayer i v iM t tM2 = ops.vLayer i v iM t' tM2) :
    ∃ st, encoderForward cfg ops outputAll txt0 img0 tM tM2 iM cM =
        Except.ok st ∧
      st.txt = specFullTextStack ops cfg.numT txt0 tM ∧
      st.img = specFullVisualStack ops cfg.numV img0 iM txt0 tM2 ∧
      ∀ cl, encoderForward cfg { ops with cLayer := cl } outputAll txt0 img0
        tM tM2 iM cM = Except.ok st := by
  obtain ⟨s, hfold, hm, hm2, him, hcm, ht, hi⟩ :=
    schedulePhase_no_coatt cfg ops hco hpair hfast hft hfv tM tM2 iM cM txt0
      img0 hv outputAll (cfg.v_biattention_id.zip cfg.t_biattention_id)
      (initEncState txt0 img0 tM tM2 iM cM) hassert hmono rfl rfl rfl rfl
      (condFold_empty _ _ _ _ _ (le_refl 0)).symm
      (condFold_empty _ _ _ _ _ (le_refl 0)).symm
  have hmain : encoderForward cfg ops outputAll txt0 img0 tM tM2 iM cM =
      Except.ok (if outputAll then tailPhase cfg ops s
        else appendOutputs (tailPhase cfg ops s)) := by
    simp only [encoderForward, schedulePhase]
    rw [hfold]
    rfl
  have htxt : (if outputAll then tailPhase cfg ops s
      else appendOutputs (tailPhase cfg ops s)).txt =
      specFullTextStack ops cfg.numT txt0 tM := by
    have hx : (if outputAll then tailPhase cfg ops s
        else appendOutputs (tailPhase cfg ops s)).txt =
        (tailPhase cfg ops s).txt := by
      cases outputAll <;> rfl
    rw [hx]
    show tailFold (fun i t => ops.tLayer i t s.tMask) cfg.numT s.tStart
      s.txt = specFullTextStack ops cfg.numT txt0 tM
    rw [hm, ht, tailFold_eq_condFold]
    by_cases hle : s.tStart ≤ cfg.numT
    · rw [← condFold_split _ cfg.numT 0 s.tStart cfg.numT txt0 (by omega)
        hle, specFullTextStack, ← condFold_full]
    · rw [condFold_empty _ cfg.numT s.tStart cfg.numT _ (by omega),
        condFold_congr_b _ 0 s.tStart cfg.numT cfg.numT txt0 (by omega)
          (le_refl _),
        specFullTextStack, ← condFold_full]
  have himg : (if outputAll then tailPhase cfg ops s
      else appendOutputs (tailPhase cfg ops s)).img =
      specFullVisualStack ops cfg.numV img0 iM txt0 tM2 := by
    have hx : (if outputAll then tailPhase cfg ops s
        else appendOutputs (tailPhase cfg ops s)).img =
        (tailPhase cfg ops s).img := by
      cases outputAll <;> rfl
    rw [hx]
    show tailFold (fun i v => ops.vLayer i v s.iMask s.txt s.tMask2)
      cfg.numV s.vStart s.img =
      specFullVisualStack ops cfg.numV img0 iM txt0 tM2
    rw [him, hm2, hi, tailFold_eq_condFold,
      condFold_congr_f (fun i v => ops.vLayer i v iM s.txt tM2)
        (fun i v => ops.vLayer i v iM txt0 tM2)
        (fun i x => hv i x s.txt txt0)]
    by_cases hle : s.vStart ≤ cfg.numV
    · rw [← condFold_split _ cfg.numV 0 s.vStart cfg.numV img0 (by omega)
        hle, specFullVisualStack, ← condFold_full]
    · rw [condFold_empty _ cfg.numV s.vStart cfg.numV _ (by omega),
        condFold_congr_b _ 0 s.vStart cfg.numV cfg.numV img0 (by omega)
          (le_refl _),
        specFullVisualStack, ← condFold_full]
  refine ⟨_, hmain, htxt, himg, fun cl => ?_⟩
  rw [encoderForward_cLayer_irrel cfg ops cl outputAll txt0 img0 tM tM2 iM
    cM hco]
  exact hmain

/-- Witness for the amended claim C7: two layers per stream, checkpoints
`[1, 2]` for both streams, frozen boundaries 1, flags off; the encoder
output equals the independent full stacks `[1, 0]`. -/
theorem claim_C7_amended_witness :
    ∃ st, encoderForward (⟨false, false, false, [1, 2], [1, 2], 1, 1, 2, 2,
        2⟩ : EncConfig) markerOps false [] [] () () () () = Except.ok st ∧
      st.txt = specFullTextStack markerOps 2 [] () ∧
      st.img = specFullVisualStack markerOps 2 [] () [] () ∧
      ∀ cl, encoderForward (⟨false, false, false, [1, 2], [1, 2], 1, 1, 2,
        2, 2⟩ : EncConfig) { markerOps with cLayer := cl } false [] [] () ()
        () () = Except.ok st :=
  claim_C7_amended ⟨false, false, false, [1, 2], [1, 2], 1, 1, 2, 2, 2⟩
    markerOps [] [] () () () () false rfl rfl rfl (by decide) (by decide)
    (by decide) (by simp [schedLeChain]) (fun i v t t' => rfl)

end MMF
